import Mathlib

/-!
Shallow embedding of `src/internal/google-vision/main.py`.

The script resolves a credential path next to its own file, writes it into
the process environment, issues one text-detection request for a hard-coded
image URL, and prints a header line followed by the description of the first
record of the returned list when that list is non-empty.  The remote call is
modelled as an oracle input of type `Except VisionError AnnotateResponse`;
everything the script itself does is embedded as a pure function producing
an event trace together with the process outcome.
-/

namespace SIH25

/-- A single record of the ordered list returned by the remote service.
The script reads only the `description` field; the `locale` field stands for
the rest of the record, which the script never touches. -/
structure AnnotationRecord where
  locale : String
  description : String
deriving DecidableEq, Repr

/-- The response payload of the text-detection call: the script consumes only
the ordered list `text_annotations`. -/
structure AnnotateResponse where
  text_annotations : List AnnotationRecord
deriving DecidableEq, Repr

/-- The ways the remote call can fail; none of them is caught by the script. -/
inductive VisionError where
  | credentialError
  | networkError
  | serviceError
deriving DecidableEq, Repr

/-- The hard-coded image URL of line 10 of the script. -/
def image_url : String :=
  "https://images.besttemplates.com/wp-content/uploads/2024/06/Certificate8.jpg"

/-- Drop the trailing slash characters of a character list
(the `rstrip` step inside the Python `dirname`). -/
def stripTrailingSlashes (l : List Char) : List Char :=
  (l.reverse.dropWhile (fun c => c == '/')).reverse

/-- Character-list form of the POSIX `os.path.dirname`: everything up to the
last slash, with trailing slashes stripped unless the result is all slashes. -/
def dirnameChars (p : List Char) : List Char :=
  let head := (p.reverse.dropWhile (fun c => c != '/')).reverse
  if head = [] then []
  else if head.all (fun c => c == '/') then head
  else stripTrailingSlashes head

/-- Character-list form of the POSIX `os.path.join` for two components:
an absolute second component wins; otherwise it is appended, inserting a
slash unless the first component is empty or already ends in a slash. -/
def joinChars (a b : List Char) : List Char :=
  if b.head? = some '/' then b
  else if a = [] then b
  else if a.getLast? = some '/' then a ++ b
  else a ++ '/' :: b

/-- String wrapper of `dirnameChars`, matching `os.path.dirname`. -/
def dirname (p : String) : String :=
  String.mk (dirnameChars p.data)

/-- String wrapper of `joinChars`, matching `os.path.join`. -/
def os_path_join (a b : String) : String :=
  String.mk (joinChars a.data b.data)

/-- Line 5 of the script: the credential path is the join of the directory
of the script file with the fixed name `vision-api.json`. -/
def CRED_PATH (scriptFile : String) : String :=
  os_path_join (dirname scriptFile) "vision-api.json"

/-- A path is absolute when it starts with a slash. -/
def isAbsolute (p : String) : Bool :=
  p.data.head? = some '/'

/-- Observable events of one invocation, in program order. -/
inductive Event where
  | setEnv (name value : String)
  | request (url : String)
  | gotResponse
  | out (line : String)
deriving DecidableEq, Repr

/-- Whether an event is a write to the standard output stream. -/
def isOutB : Event → Bool
  | .out _ => true
  | _ => false

/-- Whether an event is an outbound network request. -/
def isRequestB : Event → Bool
  | .request _ => true
  | _ => false

/-- Whether an event marks the return of the remote call. -/
def isResponseB : Event → Bool
  | .gotResponse => true
  | _ => false

/-- Whether an event is a write to an environment variable. -/
def isSetEnvB : Event → Bool
  | .setEnv _ _ => true
  | _ => false

/-- Whether an environment write targets the one variable the script sets. -/
def setEnvNameOk : Event → Bool
  | .setEnv n _ => n == "GOOGLE_APPLICATION_CREDENTIALS"
  | _ => true

/-- The outcome of one invocation: its event trace, its exit status, and
whether a diagnostic trace was written to the error stream. -/
structure Outcome where
  events : List Event
  exitCode : Nat
  stderrHasDiagnostic : Bool
deriving DecidableEq, Repr

/-- One invocation of the script.  `scriptFile` is the absolute location of
`main.py`; `cwd` is the current working directory of the process, which the
script never reads; `remote` is the outcome of the single remote call.
On an error the exception is uncaught: the trace stops after the request,
the process exits with status 1 and a traceback goes to the error stream.
On success line 15 prints the header and lines 17 and 18 print the first
description when the list is non-empty. -/
def run (scriptFile : String) (cwd : String)
    (remote : Except VisionError AnnotateResponse) : Outcome :=
  let cred := CRED_PATH scriptFile
  match remote with
  | .error _ =>
      { events := [.setEnv "GOOGLE_APPLICATION_CREDENTIALS" cred,
                   .request image_url],
        exitCode := 1,
        stderrHasDiagnostic := true }
  | .ok response =>
      let texts := response.text_annotations
      { events := [.setEnv "GOOGLE_APPLICATION_CREDENTIALS" cred,
                   .request image_url,
                   .gotResponse,
                   .out "Texts:"] ++
                  (match texts with
                   | [] => []
                   | t :: _ => [.out t.description]),
        exitCode := 0,
        stderrHasDiagnostic := false }

/-- The whole standard-output text of an invocation: each printed line
followed by a newline, in order. -/
def stdoutOf (o : Outcome) : String :=
  o.events.foldr (fun e acc =>
    match e with
    | .out s => s ++ "\n" ++ acc
    | _ => acc) ""

/-- The event traces of two separate invocations, in sequence. -/
def runTwiceEvents (f₁ c₁ : String) (r₁ : Except VisionError AnnotateResponse)
    (f₂ c₂ : String) (r₂ : Except VisionError AnnotateResponse) : List Event :=
  (run f₁ c₁ r₁).events ++ (run f₂ c₂ r₂).events

/-! String helpers: `String` append is list append on the `data` field. -/

theorem str_data_append (a b : String) : (a ++ b).data = a.data ++ b.data :=
  rfl

theorem str_append_assoc (a b c : String) : a ++ b ++ c = a ++ (b ++ c) := by
  cases a
  cases b
  cases c
  simp [String.ext_iff, str_data_append]

theorem str_append_empty (a : String) : a ++ "" = a := by
  cases a
  simp [String.ext_iff, str_data_append]

/-! Facts about `dirnameChars`, `joinChars` and `CRED_PATH`. -/

theorem dropWhile_to_slash (l : List Char) :
    (l ++ ['/']).dropWhile (fun c => c != '/') ≠ [] ∧
    ((l ++ ['/']).dropWhile (fun c => c != '/')).getLast? = some '/' := by
  induction l with
  | nil => exact ⟨by simp, rfl⟩
  | cons c l ih =>
    by_cases hc : c = '/'
    · subst hc
      have hred : ((('/' : Char) :: l) ++ ['/']).dropWhile (fun c => c != '/')
          = '/' :: (l ++ ['/']) := rfl
      refine ⟨by rw [hred]; simp, ?_⟩
      rw [hred, show ('/' : Char) :: (l ++ ['/']) = (('/' : Char) :: l) ++ ['/'] from rfl,
        List.getLast?_concat]
    · have hcb : (c != '/') = true := bne_iff_ne.mpr hc
      have hred : ((c :: l) ++ ['/']).dropWhile (fun c => c != '/')
          = (l ++ ['/']).dropWhile (fun c => c != '/') := by
        rw [List.cons_append, List.dropWhile_cons, if_pos hcb]
      rw [hred]
      exact ih

theorem strip_eq_nil_all (l : List Char) (h : stripTrailingSlashes l = []) :
    l.all (fun c => c == '/') = true := by
  have h2 : l.reverse.dropWhile (fun c => c == '/') = [] := by
    rwa [stripTrailingSlashes, List.reverse_eq_nil_iff] at h
  rw [List.all_eq_true]
  intro x hx
  exact List.dropWhile_eq_nil_iff.mp h2 x (List.mem_reverse.mpr hx)

theorem strip_decomp (l : List Char) :
    stripTrailingSlashes l
      ++ (l.reverse.takeWhile (fun c => c == '/')).reverse = l := by
  rw [stripTrailingSlashes, ← List.reverse_append, List.takeWhile_append_dropWhile,
    List.reverse_reverse]

theorem strip_head? (l : List Char) (h : stripTrailingSlashes l ≠ []) :
    (stripTrailingSlashes l).head? = l.head? := by
  have hdec := strip_decomp l
  cases hs : stripTrailingSlashes l with
  | nil => exact absurd hs h
  | cons a t =>
    rw [hs] at hdec
    rw [← hdec, List.cons_append]
    rfl

theorem dirnameChars_abs (p : List Char) (h : p.head? = some '/') :
    dirnameChars p ≠ [] ∧ (dirnameChars p).head? = some '/' := by
  cases p with
  | nil => exact absurd h (by simp)
  | cons c t =>
    have hc : c = '/' := by simpa using h
    subst hc
    have hrev : (('/' : Char) :: t).reverse = t.reverse ++ ['/'] := by simp
    obtain ⟨hne, hlast⟩ := dropWhile_to_slash t.reverse
    have hhne : (((t.reverse ++ ['/']).dropWhile (fun c => c != '/')).reverse : List Char)
        ≠ [] := List.reverse_ne_nil_iff.mpr hne
    have hhd : (((t.reverse ++ ['/']).dropWhile (fun c => c != '/')).reverse).head?
        = some '/' := by rw [List.head?_reverse]; exact hlast
    simp only [dirnameChars, hrev]
    rw [if_neg hhne]
    by_cases hall :
        (((t.reverse ++ ['/']).dropWhile (fun c => c != '/')).reverse).all
          (fun c => c == '/') = true
    · rw [if_pos hall]
      exact ⟨hhne, hhd⟩
    · rw [if_neg hall]
      have hsne : stripTrailingSlashes
          (((t.reverse ++ ['/']).dropWhile (fun c => c != '/')).reverse) ≠ [] := by
        intro hnil
        exact hall (strip_eq_nil_all _ hnil)
      refine ⟨hsne, ?_⟩
      rw [strip_head? _ hsne]
      exact hhd

theorem dirname_abs (f : String) (h : isAbsolute f = true) :
    (dirname f).data ≠ [] ∧ (dirname f).data.head? = some '/' := by
  have h2 : f.data.head? = some '/' := by
    simpa [isAbsolute] using h
  exact dirnameChars_abs f.data h2

theorem joinChars_vision (a : List Char) (ha : a ≠ [])
    (hlast : a.getLast? ≠ some '/') :
    joinChars a ("vision-api.json".data) = a ++ '/' :: "vision-api.json".data := by
  have hb : (("vision-api.json".data).head? = some '/') = False := by
    simp [String.data]
  rw [joinChars, if_neg (by rw [hb]; exact id), if_neg ha, if_neg hlast]

theorem CRED_PATH_resolves (f : String) (habs : isAbsolute f = true)
    (hroot : (dirname f).data.getLast? ≠ some '/') :
    CRED_PATH f = dirname f ++ "/vision-api.json" ∧
    isAbsolute (CRED_PATH f) = true := by
  obtain ⟨hne, hhd⟩ := dirname_abs f habs
  have hj := joinChars_vision (dirname f).data hne hroot
  have hdata : (CRED_PATH f).data = (dirname f).data ++ '/' :: "vision-api.json".data := by
    rw [CRED_PATH, os_path_join]
    exact hj
  constructor
  · rw [String.ext_iff, hdata, str_data_append]
  · rw [isAbsolute, hdata, List.head?_append, hhd]
    rfl

/-! Facts about the standard output of a successful invocation. -/

theorem stdout_ok_cons (f c : String) (t : AnnotationRecord)
    (rest : List AnnotationRecord) :
    stdoutOf (run f c (.ok ⟨t :: rest⟩)) = "Texts:\n" ++ t.description ++ "\n" := by
  show ("Texts:" ++ "\n") ++ ((t.description ++ "\n") ++ "")
      = "Texts:\n" ++ t.description ++ "\n"
  rw [str_append_empty, ← str_append_assoc]
  rfl

theorem countP_request_run (f c : String)
    (r : Except VisionError AnnotateResponse) :
    (run f c r).events.countP isRequestB = 1 := by
  cases r with
  | error e => rfl
  | ok resp =>
    cases resp with
    | mk texts => cases texts <;> rfl

/-! The claims. -/

/-- C1: whenever the remote call succeeds and returns a non-empty list whose
first record has description `"HELLO WORLD"`, the whole standard output is
exactly the two lines `Texts:` and `HELLO WORLD`. -/
theorem claim_hello_world_output (f cwd loc : String)
    (rest : List AnnotationRecord) :
    stdoutOf (run f cwd (.ok ⟨⟨loc, "HELLO WORLD"⟩ :: rest⟩))
      = "Texts:\nHELLO WORLD\n" := by
  rw [stdout_ok_cons]
  rfl

/-- C2: whenever the remote call succeeds and returns an empty list, the
whole standard output is exactly the header line `Texts:` and nothing else. -/
theorem claim_empty_list_output (f cwd : String) :
    stdoutOf (run f cwd (.ok ⟨[]⟩)) = "Texts:\n" :=
  rfl

/-- C3: for an invocation whose script file is an absolute path (and whose
directory is not the filesystem root), the resolved credential path is
absolute, equals the directory of the script followed by `/vision-api.json`,
and the whole outcome of the invocation is independent of the current
working directory. -/
theorem claim_cred_path (f cwd cwd' : String)
    (r : Except VisionError AnnotateResponse)
    (habs : isAbsolute f = true)
    (hroot : (dirname f).data.getLast? ≠ some '/') :
    isAbsolute (CRED_PATH f) = true ∧
    CRED_PATH f = dirname f ++ "/vision-api.json" ∧
    run f cwd r = run f cwd' r := by
  obtain ⟨heq, habs2⟩ := CRED_PATH_resolves f habs hroot
  exact ⟨habs2, heq, rfl⟩

/-- C3 witness at a concrete script location. -/
theorem claim_cred_path_witness :
    (isAbsolute "/repo/internal/google-vision/main.py" = true) ∧
    ((dirname "/repo/internal/google-vision/main.py").data.getLast? ≠ some '/') ∧
    (isAbsolute (CRED_PATH "/repo/internal/google-vision/main.py") = true ∧
     CRED_PATH "/repo/internal/google-vision/main.py"
       = dirname "/repo/internal/google-vision/main.py" ++ "/vision-api.json" ∧
     run "/repo/internal/google-vision/main.py" "/home/a" (.ok ⟨[]⟩)
       = run "/repo/internal/google-vision/main.py" "/home/b" (.ok ⟨[]⟩)) :=
  ⟨by decide, by decide,
    claim_cred_path "/repo/internal/google-vision/main.py" "/home/a" "/home/b"
      (.ok ⟨[]⟩) (by decide) (by decide)⟩

/-- C4: whenever the remote call raises, the error is not caught: the exit
status is non-zero, a diagnostic goes to the error stream, and standard
output is empty — in particular no `Texts:` line is printed. -/
theorem claim_uncaught_error (f cwd : String) (e : VisionError) :
    (run f cwd (.error e)).exitCode ≠ 0 ∧
    (run f cwd (.error e)).stderrHasDiagnostic = true ∧
    stdoutOf (run f cwd (.error e)) = "" ∧
    (run f cwd (.error e)).events.countP isOutB = 0 :=
  ⟨by simp [run], rfl, rfl, rfl⟩

/-- C5: in every execution, no write to standard output ever occurs before
the remote call has returned: the part of the trace before the response
event holds no output event. -/
theorem claim_no_output_before_response (f cwd : String)
    (r : Except VisionError AnnotateResponse) :
    (((run f cwd r).events.takeWhile (fun e => !isResponseB e)).all
      (fun e => !isOutB e)) = true := by
  cases r with
  | error e => rfl
  | ok resp =>
    cases resp with
    | mk texts => cases texts <;> rfl

/-- C6: every invocation issues exactly one network request, and two
invocations in sequence issue two requests, the second invocation's trace
being exactly the trace of a fresh run of its own inputs — no caching. -/
theorem claim_one_request (f cwd : String) (r : Except VisionError AnnotateResponse)
    (f₁ c₁ : String) (r₁ : Except VisionError AnnotateResponse)
    (f₂ c₂ : String) (r₂ : Except VisionError AnnotateResponse) :
    (run f cwd r).events.countP isRequestB = 1 ∧
    (runTwiceEvents f₁ c₁ r₁ f₂ c₂ r₂).countP isRequestB = 2 ∧
    (runTwiceEvents f₁ c₁ r₁ f₂ c₂ r₂).drop (run f₁ c₁ r₁).events.length
      = (run f₂ c₂ r₂).events := by
  refine ⟨countP_request_run f cwd r, ?_, ?_⟩
  · rw [runTwiceEvents, List.countP_append,
      countP_request_run f₁ c₁ r₁, countP_request_run f₂ c₂ r₂]
  · rw [runTwiceEvents]
    exact List.drop_left _ _

/-- C7: the credential environment variable is written exactly once, before
the network request, and every environment write of the trace targets that
one variable. -/
theorem claim_env_write_once (f cwd : String)
    (r : Except VisionError AnnotateResponse) :
    (run f cwd r).events.countP isSetEnvB = 1 ∧
    (run f cwd r).events.all setEnvNameOk = true ∧
    ((run f cwd r).events.takeWhile (fun e => !isRequestB e)).countP isSetEnvB
      = 1 := by
  cases r with
  | error e => exact ⟨rfl, rfl, rfl⟩
  | ok resp =>
    cases resp with
    | mk texts => cases texts <;> exact ⟨rfl, rfl, rfl⟩

/-- C8: when the returned list has two or more records, the outcome — and in
particular the standard output — depends only on the first record: the
records after the first are never consumed, and the output is the header
followed by the first description. -/
theorem claim_only_first_consumed (f cwd : String) (a b : AnnotationRecord)
    (rest : List AnnotationRecord) :
    stdoutOf (run f cwd (.ok ⟨a :: b :: rest⟩))
      = "Texts:\n" ++ a.description ++ "\n" ∧
    ∀ (b' : AnnotationRecord) (rest' : List AnnotationRecord),
      run f cwd (.ok ⟨a :: b' :: rest'⟩) = run f cwd (.ok ⟨a :: b :: rest⟩) := by
  refine ⟨stdout_ok_cons f cwd a (b :: rest), ?_⟩
  intro b' rest'
  rfl

/-- C9: the standard output is a deterministic function of the returned
list: two successful invocations whose responses carry identical lists
produce identical standard output, whatever their other parameters. -/
theorem claim_deterministic_output (f₁ c₁ f₂ c₂ : String)
    (r₁ r₂ : AnnotateResponse)
    (h : r₁.text_annotations = r₂.text_annotations) :
    stdoutOf (run f₁ c₁ (.ok r₁)) = stdoutOf (run f₂ c₂ (.ok r₂)) := by
  obtain ⟨ts₁⟩ := r₁
  obtain ⟨ts₂⟩ := r₂
  have h' : ts₁ = ts₂ := h
  subst h'
  cases ts₁ with
  | nil => rfl
  | cons t rest => rw [stdout_ok_cons, stdout_ok_cons]

/-- C9 witness: two invocations differing in script path and working
directory but with the same returned list print the same output. -/
theorem claim_deterministic_output_witness :
    ((AnnotateResponse.mk [⟨"en", "HI"⟩]).text_annotations
      = (AnnotateResponse.mk [⟨"en", "HI"⟩]).text_annotations) ∧
    stdoutOf (run "/a/main.py" "/x" (.ok ⟨[⟨"en", "HI"⟩]⟩))
      = stdoutOf (run "/b/main.py" "/y" (.ok ⟨[⟨"en", "HI"⟩]⟩)) :=
  ⟨rfl, claim_deterministic_output "/a/main.py" "/x" "/b/main.py" "/y"
    ⟨[⟨"en", "HI"⟩]⟩ ⟨[⟨"en", "HI"⟩]⟩ rfl⟩

/-- C10: a non-empty list whose first description is the empty string yields
the header plus one blank line, which differs from the empty-list output. -/
theorem claim_empty_description (f cwd loc : String)
    (rest : List AnnotationRecord) :
    stdoutOf (run f cwd (.ok ⟨⟨loc, ""⟩ :: rest⟩)) = "Texts:\n\n" ∧
    stdoutOf (run f cwd (.ok ⟨⟨loc, ""⟩ :: rest⟩))
      ≠ stdoutOf (run f cwd (.ok ⟨[]⟩)) := by
  have h1 : stdoutOf (run f cwd (.ok ⟨⟨loc, ""⟩ :: rest⟩)) = "Texts:\n\n" := by
    rw [stdout_ok_cons]
    rfl
  have h2 : stdoutOf (run f cwd (.ok ⟨[]⟩)) = "Texts:\n" := rfl
  refine ⟨h1, ?_⟩
  rw [h1, h2]
  decide

end SIH25
